import Mathlib

/-!
Verification of the Matching, Ranking and Gap-Analysis Engine and the
Multi-Provider Chat Router of the skill-based job-recommendation system,
together with the dashboard frontend helpers (`dashboard.js`).

The repository ships the dashboard JavaScript and the documentation of the
backend engine; the engine itself is not part of the visible sources, so the
engine definitions below are modelled from the specification text, as their
doc comments state.  The frontend definitions are translated directly from
`src/frontend/static/js/dashboard.js`.
-/

namespace JobRec

/-! ## Matching Engine (spec §4.2) -/

/-- ASCII lower-casing of a single character, the computable core of the
case-insensitive skill comparison. -/
def lowerChar (c : Char) : Char :=
  if ('A' ≤ c ∧ c ≤ 'Z') then Char.ofNat (c.toNat + 32) else c

/-- Lower-cased character sequence of a skill name. -/
def lowerStr (s : String) : List Char := s.data.map lowerChar

/-- Exact case-insensitive string equality (spec §4.2 step 3). -/
def eqCI (a b : String) : Bool := lowerStr a == lowerStr b

/-- Modelled from the spec: the similarity threshold check of §4.2 step 3
(`similarity ≥ configured threshold`) comes from the external Embedding
Provider; the engine code for it is not under `src/`.  We abstract it as an
opaque Boolean oracle on pairs of skill strings. -/
def SimOracle : Type := String → String → Bool

/-- Modelled from the spec: §4.2 step 3 — a profile skill matches a job skill
if the two strings are equal case-insensitively (the cheap exact check,
applied first) OR similarity is above threshold. -/
def skillMatches (sim : SimOracle) (p s : String) : Bool :=
  eqCI p s || sim p s

/-- Modelled from the spec: §4.2 step 4 — matched skills are the
job-required-or-preferred skills with at least one matching profile skill. -/
def matchedSkills (sim : SimOracle) (profile req pref : Finset String) :
    Finset String :=
  (req ∪ pref).filter (fun s => ∃ p ∈ profile, skillMatches sim p s = true)

/-- Modelled from the spec: §4.2 step 4 — missing skills are the required
skills with no matching profile skill. -/
def missingSkills (sim : SimOracle) (profile req : Finset String) :
    Finset String :=
  req.filter (fun s => ¬ ∃ p ∈ profile, skillMatches sim p s = true)

/-- MatchResult record of the spec's data model (§3). -/
structure MatchResult where
  match_score : ℚ
  matched_skills : Finset String
  missing_skills : Finset String
  skill_gap_percentage : ℚ
  deriving DecidableEq

/-- Modelled from the spec: `match` of §4.2 (the engine source is not under
`src/`).  Steps 3–6: matched and missing skill sets, the weighted score
`0.7 * (|matched ∩ required| / |required|) + 0.3 * (|matched ∩ preferred| / max(|preferred|,1))`
with the required-term defined as 1.0 for empty `required`, and the gap
percentage `100 * |missing| / max(|required|,1)`. -/
def «match» (sim : SimOracle) (profile req pref : Finset String) :
    MatchResult :=
  let matched := matchedSkills sim profile req pref
  let missing := missingSkills sim profile req
  { match_score :=
      7/10 * (if req = ∅ then 1 else ((matched ∩ req).card : ℚ) / req.card)
        + 3/10 * (((matched ∩ pref).card : ℚ) / (max pref.card 1 : ℕ))
    matched_skills := matched
    missing_skills := missing
    skill_gap_percentage := 100 * (missing.card : ℚ) / (max req.card 1 : ℕ) }

/-- The trivial similarity oracle: no embedding-based matches, so the
matching relation degenerates to exact case-insensitive equality. -/
def noSim : SimOracle := fun _ _ => false

/-! ## Skill-Gap Analyzer (spec §4.4) -/

/-- Severity categories of the gap report (spec §4.4). -/
inductive Severity where
  | none
  | minor
  | moderate
  | major
  deriving DecidableEq

/-- GapReport record of the spec's §4.4 contract. -/
structure GapReport where
  percentage : ℚ
  missing_skills : Finset String
  severity : Severity
  deriving DecidableEq

/-- Modelled from the spec: the categorical severity of §4.4 — `none` (0%),
`minor` (<25%), `moderate` (25–60%), `major` (>60%). -/
def severityOf (p : ℚ) : Severity :=
  if p = 0 then .none
  else if p < 25 then .minor
  else if p ≤ 60 then .moderate
  else .major

/-- Modelled from the spec: `analyze_gap` of §4.4, a pure function of the
already-computed MatchResult (it takes no Embedding Provider argument, so it
cannot call one). -/
def analyze_gap (m : MatchResult) : GapReport :=
  { percentage := m.skill_gap_percentage
    missing_skills := m.missing_skills
    severity := severityOf m.skill_gap_percentage }

/-! ## Ranking Engine (spec §4.3) -/

/-- Job record of the spec's data model (§3), restricted to the fields the
Ranking Engine reads: id, skill set, posting date and the active flag. -/
structure Job where
  id : ℕ
  skills : Finset String
  posted : ℕ
  active : Bool
  deriving DecidableEq

/-- The slice of a Profile the Ranking Engine reads: the interaction
history's previously-saved jobs (§4.3 tie-break 1). -/
structure RankProfile where
  savedJobs : List Job
  deriving DecidableEq

/-- A ranking candidate: a job together with its MatchResult. -/
structure Candidate where
  job : Job
  result : MatchResult
  deriving DecidableEq

/-- Modelled from the spec: §4.3 historical affinity — +0.05 per
previously-saved job sharing at least 2 skills with the candidate job,
capped at +0.2. -/
def affinity (p : RankProfile) (j : Job) : ℚ :=
  min (1/20 * (p.savedJobs.countP
    (fun sj => 2 ≤ (sj.skills ∩ j.skills).card) : ℚ)) (1/5)

/-- Modelled from the spec: §4.3 total order key, encoded lexicographically —
descending match score, then descending affinity, then newer posting first,
then ascending job id. -/
def rankKey (p : RankProfile) (c : Candidate) : ℚ ×ₗ (ℚ ×ₗ (ℤ ×ₗ ℕ)) :=
  toLex (-(c.result.match_score),
    toLex (-(affinity p c.job), toLex (-(c.job.posted : ℤ), c.job.id)))

/-- The ranking order: candidate `a` comes no later than `b` when its key is
no larger in the lexicographic key order. -/
def rankLE (p : RankProfile) (a b : Candidate) : Prop :=
  rankKey p a ≤ rankKey p b

instance (p : RankProfile) : DecidableRel (rankLE p) := fun a b =>
  inferInstanceAs (Decidable (rankKey p a ≤ rankKey p b))

instance (p : RankProfile) : IsTotal Candidate (rankLE p) :=
  ⟨fun a b => le_total (rankKey p a) (rankKey p b)⟩

instance (p : RankProfile) : IsTrans Candidate (rankLE p) :=
  ⟨fun _ _ _ => le_trans⟩

/-- Default truncation limit of the recommendation list (spec §4.3). -/
def defaultLimit : ℕ := 10

/-- Modelled from the spec: `rank` of §4.3 — drop inactive jobs first, sort
all remaining candidates by the total order key, truncate afterwards. -/
def rank (p : RankProfile) (candidates : List Candidate) (limit : ℕ) :
    List Candidate :=
  ((candidates.filter (fun c => c.job.active)).insertionSort (rankLE p)).take
    limit

/-! ## Chat Router circuit breaker (spec §4.6) -/

/-- Circuit state of a ProviderState (spec §3). -/
inductive Circuit where
  | closed
  | «open»
  | halfOpen
  deriving DecidableEq

/-- ProviderState record of the spec's data model (§3): circuit state,
consecutive failure count, last failure time (in seconds). -/
structure ProviderState where
  circuit : Circuit
  failures : ℕ
  lastFailure : ℕ
  deriving DecidableEq

/-- Failure threshold: 3 consecutive failures open the circuit (§4.6). -/
def failureThreshold : ℕ := 3

/-- Cooldown of an open circuit, 60 seconds (§4.6). -/
def cooldownSeconds : ℕ := 60

/-- Modelled from the spec: §4.6 failure bookkeeping — increment the
consecutive failure count; a failed half-open trial reopens the circuit and
restarts the cooldown; reaching the threshold opens the circuit. -/
def onFailure (s : ProviderState) (now : ℕ) : ProviderState :=
  match s.circuit with
  | .halfOpen => { circuit := .«open», failures := s.failures + 1,
                   lastFailure := now }
  | _ =>
      if failureThreshold ≤ s.failures + 1 then
        { circuit := .«open», failures := s.failures + 1, lastFailure := now }
      else
        { circuit := s.circuit, failures := s.failures + 1,
          lastFailure := now }

/-- Modelled from the spec: §4.6 — a successful call closes the circuit and
resets the consecutive failure count to zero. -/
def onSuccess (s : ProviderState) : ProviderState :=
  { circuit := .closed, failures := 0, lastFailure := s.lastFailure }

/-- Modelled from the spec: §4.6 call admission — a closed circuit admits the
call; an open circuit admits nothing during cooldown and turns half-open for
a single trial once the cooldown has elapsed; a half-open circuit admits no
further call while its one trial is in flight. -/
def tryAcquire (s : ProviderState) (now : ℕ) : Option ProviderState :=
  match s.circuit with
  | .closed => some s
  | .«open» =>
      if s.lastFailure + cooldownSeconds ≤ now then
        some { circuit := .halfOpen, failures := s.failures,
               lastFailure := s.lastFailure }
      else none
  | .halfOpen => none

/-- The initial per-provider state: circuit closed, no failures. -/
def initialProviderState : ProviderState :=
  { circuit := .closed, failures := 0, lastFailure := 0 }

/-- States of the circuit state machine reachable from the initial state by
admissions, successes and failures. -/
inductive ReachableProviderState : ProviderState → Prop where
  | init : ReachableProviderState initialProviderState
  | acquire {s s' : ProviderState} {now : ℕ} :
      ReachableProviderState s → tryAcquire s now = some s' →
      ReachableProviderState s'
  | success {s : ProviderState} :
      ReachableProviderState s → ReachableProviderState (onSuccess s)
  | failure {s : ProviderState} {now : ℕ} :
      ReachableProviderState s → ReachableProviderState (onFailure s now)

/-! ## Similarity Scorer (spec §4.1) -/

/-- Error taxonomy of the Similarity Scorer (spec §4.1/§7). -/
inductive SimError where
  | DimensionMismatch
  deriving DecidableEq

/-- Dot product of two skill vectors of equal dimension (extra trailing
entries contribute nothing, but the scorer rejects unequal dimensions before
ever computing it). -/
def dotp : List ℝ → List ℝ → ℝ
  | a :: as, b :: bs => a * b + dotp as bs
  | _, _ => 0

/-- Euclidean magnitude of a skill vector. -/
noncomputable def magnitude (a : List ℝ) : ℝ := Real.sqrt (dotp a a)

/-- Modelled from the spec: `similarity` of §4.1 (the scorer source is not
under `src/`) — cosine similarity, dot product over the product of
magnitudes; `DimensionMismatch` on unequal dimensions; 0 by convention when
either vector has magnitude 0.  The spec's floats are modelled as reals. -/
noncomputable def similarity (a b : List ℝ) : Except SimError ℝ :=
  haveI := Classical.dec (magnitude a = 0 ∨ magnitude b = 0)
  if a.length = b.length then
    if magnitude a = 0 ∨ magnitude b = 0 then .ok 0
    else .ok (dotp a b / (magnitude a * magnitude b))
  else .error .DimensionMismatch

/-! ## Chat Router send path (spec §4.6) and dashboard chat widget -/

/-- Modelled from the spec: a provider in the router's preference list, as
the router sees it for one turn — it either produces a response text or
fails (`none` covers timeout, error response, malformed output, and a
circuit-open provider being skipped entirely). -/
def Provider : Type := String → Option String

/-- Modelled from the spec: the fixed degraded response returned when every
provider fails or is circuit-open (§4.6; its exact wording is not given by
the source material). -/
def degradedResponse : String :=
  "All assistants are temporarily unavailable. Please try again later."

/-- Modelled from the spec: the fallback loop of `send` (§4.6) — try each
provider of the preference list in order, return the first response, and
return the fixed degraded response instead of raising when the whole chain
is exhausted. -/
def send : List Provider → String → String
  | [], _ => degradedResponse
  | p :: rest, msg =>
      match p msg with
      | some out => out
      | none => send rest msg

/-- Whitespace test used by the dashboard's input trimming. -/
def isWS (c : Char) : Bool :=
  (c == ' ') || (c == '\t') || (c == '\n') || (c == '\r')

/-- The `input.value.trim()` call of `dashboard.js`: strip whitespace from
both ends. -/
def trimStr (s : String) : String :=
  ⟨((s.data.dropWhile isWS).reverse.dropWhile isWS).reverse⟩

/-- Sender role of a chat bubble in the dashboard widget
(`addMessageToChat(message, sender)` of `dashboard.js`). -/
inductive Role where
  | user
  | bot
  deriving DecidableEq

/-- The fixed polite message `sendMessage` of `dashboard.js` puts in the
chat when the chatbot request fails. -/
def politeFallback : String :=
  "Sorry, I had trouble processing that. Please try again."

/-- The `sendMessage` function of `dashboard.js` (lines 266–300), as a function from the
chat transcript, the raw input value and the outcome of the fetch (`none`:
network error or a non-ok response) to the new transcript: an empty trimmed
message returns unchanged; otherwise the user message is appended, then
either the chatbot's response or the fixed polite fallback as the bot
bubble. -/
def sendMessage (chat : List (Role × String)) (input : String)
    (response : Option String) : List (Role × String) :=
  if trimStr input = "" then chat
  else
    match response with
    | some text => chat ++ [(Role.user, trimStr input), (Role.bot, text)]
    | none => chat ++ [(Role.user, trimStr input), (Role.bot, politeFallback)]

/-! ## Dashboard recommendation cards (`displayRecommendations`) -/

/-- The job fields `displayRecommendations` of `dashboard.js` reads. -/
structure RecJob where
  id : ℕ
  title : String
  company : String
  location : Option String
  deriving DecidableEq

/-- A recommendation as delivered to the dashboard by
`GET /api/recommendations`. -/
structure Recommendation where
  job : RecJob
  match_score : ℚ
  matched_skills : List String
  deriving DecidableEq

/-- A rendered job card of the dashboard. -/
structure JobCard where
  jobId : ℕ
  title : String
  matchPercent : ℤ
  company : String
  location : String
  skillTags : List String
  deriving DecidableEq

/-- One job card of `displayRecommendations` (`dashboard.js` lines
155–182): title, rounded percentage badge, company, location with the
`Remote` default, the first three matched skills as tags and a single
`+N more` tag when more than three matched. -/
def renderCard (rec : Recommendation) : JobCard :=
  { jobId := rec.job.id
    title := rec.job.title
    matchPercent := round (100 * rec.match_score)
    company := rec.job.company
    location := rec.job.location.getD "Remote"
    skillTags :=
      rec.matched_skills.take 3 ++
        (if 3 < rec.matched_skills.length
         then ["+" ++ toString (rec.matched_skills.length - 3) ++ " more"]
         else []) }

/-- The `displayRecommendations` function of `dashboard.js` (lines 147–185): render the
first five recommendations (`recommendations.slice(0, 5)`) as job cards, in
the given order; an empty list renders no cards (only a placeholder
paragraph). -/
def displayRecommendations (recs : List Recommendation) : List JobCard :=
  (recs.take 5).map renderCard

end JobRec

namespace JobRec

lemma match_score_def (sim : SimOracle) (profile req pref : Finset String) :
    («match» sim profile req pref).match_score =
      7/10 * (if req = ∅ then 1
              else ((matchedSkills sim profile req pref ∩ req).card : ℚ) /
                req.card)
        + 3/10 * (((matchedSkills sim profile req pref ∩ pref).card : ℚ) /
            (max pref.card 1 : ℕ)) := rfl

lemma match_matched_def (sim : SimOracle) (profile req pref : Finset String) :
    («match» sim profile req pref).matched_skills =
      matchedSkills sim profile req pref := rfl

lemma match_missing_def (sim : SimOracle) (profile req pref : Finset String) :
    («match» sim profile req pref).missing_skills =
      missingSkills sim profile req := rfl

lemma match_gap_def (sim : SimOracle) (profile req pref : Finset String) :
    («match» sim profile req pref).skill_gap_percentage =
      100 * ((missingSkills sim profile req).card : ℚ) /
        (max req.card 1 : ℕ) := rfl

/-- A skill always matches itself: case-insensitive equality is reflexive. -/
lemma skillMatches_self (sim : SimOracle) (s : String) :
    skillMatches sim s s = true := by
  simp [skillMatches, eqCI]

/-- With an empty profile no job skill has a matching profile skill. -/
lemma matchedSkills_empty_profile (sim : SimOracle) (req pref : Finset String) :
    matchedSkills sim ∅ req pref = ∅ := by
  simp [matchedSkills]

/-- With an empty profile every required skill is missing. -/
lemma missingSkills_empty_profile (sim : SimOracle) (req : Finset String) :
    missingSkills sim ∅ req = req := by
  simp [missingSkills]

/-- Matching a skill set against itself (no preferred skills) matches every
required skill. -/
lemma matchedSkills_self (sim : SimOracle) (A : Finset String) :
    matchedSkills sim A A ∅ = A := by
  rw [matchedSkills, Finset.union_empty]
  exact Finset.filter_true_of_mem fun s hs => ⟨s, hs, skillMatches_self sim s⟩

/-- With an empty required set nothing is missing. -/
lemma missingSkills_empty_req (sim : SimOracle) (profile : Finset String) :
    missingSkills sim profile ∅ = ∅ := by
  simp [missingSkills]

/-- In every reachable state a closed circuit has strictly fewer than
`failureThreshold` consecutive failures. -/
lemma reachable_closed_failures_lt {s : ProviderState}
    (h : ReachableProviderState s) :
    s.circuit = .closed → s.failures < failureThreshold := by
  induction h with
  | init => intro _; decide
  | @acquire s s' now _ hacq ih =>
      intro hc
      rcases hs : s.circuit with _ | _ | _ <;>
        simp only [tryAcquire, hs] at hacq
      · obtain rfl := Option.some_inj.mp hacq
        exact ih hs
      · split at hacq
        · obtain rfl := Option.some_inj.mp hacq
          simp at hc
        · exact absurd hacq (by simp)
      · exact absurd hacq (by simp)
  | success _ _ =>
      intro _
      simp [onSuccess, failureThreshold]
  | @failure s now _ ih =>
      intro hc
      rcases hs : s.circuit with _ | _ | _ <;>
        simp only [onFailure, hs] at hc ⊢
      · by_cases hth : failureThreshold ≤ s.failures + 1
        · simp [hth] at hc
        · simp [hth]
          omega
      · by_cases hth : failureThreshold ≤ s.failures + 1 <;>
          simp [hth] at hc
      · simp at hc


/-- C1: the match score is the 0.7/0.3 weighted sum of the required-coverage
and preferred-coverage terms (required-term 1 for empty required skills), and
on the concrete scenario — profile {Python, SQL}, required {Python, AWS},
preferred {SQL}, exact case-insensitive matching only — the score is
0.65 = 13/20. -/
theorem match_score_weighted_sum :
    (∀ (sim : SimOracle) (profile req pref : Finset String),
      («match» sim profile req pref).match_score =
        7/10 * (if req = ∅ then 1
                else ((matchedSkills sim profile req pref ∩ req).card : ℚ) /
                  req.card)
          + 3/10 * (((matchedSkills sim profile req pref ∩ pref).card : ℚ) /
              (max pref.card 1 : ℕ))) ∧
    («match» noSim {"Python", "SQL"} {"Python", "AWS"} {"SQL"}).match_score
      = 13/20 := by
  refine ⟨match_score_def, ?_⟩
  have h1 : (matchedSkills noSim {"Python", "SQL"} {"Python", "AWS"} {"SQL"}
      ∩ {"Python", "AWS"}).card = 1 := by decide
  have h2 : (matchedSkills noSim {"Python", "SQL"} {"Python", "AWS"} {"SQL"}
      ∩ {"SQL"}).card = 1 := by decide
  have hne : ¬ (({"Python", "AWS"} : Finset String) = ∅) := by decide
  have hc1 : ({"Python", "AWS"} : Finset String).card = 2 := by decide
  have hc2 : ({"SQL"} : Finset String).card = 1 := by decide
  rw [match_score_def, if_neg hne, h1, h2, hc1, hc2]
  norm_num

/-- C2 (counterexample): as stated the claim is false.  With required skills
identical to the profile and no preferred skills the score is 0.7, not 1.0
(the preferred term contributes 0/max(0,1) = 0); and with an empty profile
and empty required skills the score is 0.7, not 0 (the required-term is
defined as 1.0 for empty required skills). -/
theorem match_identity_score_ne_one :
    («match» noSim {"python"} {"python"} ∅).match_score ≠ 1 ∧
    («match» noSim ∅ ∅ ∅).match_score ≠ 0 := by
  have hc : ({"python"} : Finset String).card = 1 := by decide
  have h1 : («match» noSim {"python"} {"python"} ∅).match_score = 7/10 := by
    rw [match_score_def, if_neg (by decide), matchedSkills_self,
      Finset.inter_self, Finset.inter_empty, Finset.card_empty, hc]
    norm_num
  have h2 : («match» noSim ∅ ∅ ∅).match_score = 7/10 := by
    rw [match_score_def, if_pos rfl]
    simp
  rw [h1, h2]
  norm_num

/-- C2 (amended): matching a non-empty skill set against a job requiring
exactly those skills and preferring none yields score 0.7 (full required
term, empty preferred term); and an empty profile against a non-empty
required set yields score 0 with every required skill missing. -/
theorem match_identity_and_empty_profile :
    (∀ (sim : SimOracle) (A : Finset String), A ≠ ∅ →
      («match» sim A A ∅).match_score = 7/10) ∧
    (∀ (sim : SimOracle) (req pref : Finset String), req ≠ ∅ →
      («match» sim ∅ req pref).match_score = 0 ∧
      («match» sim ∅ req pref).missing_skills = req) := by
  constructor
  · intro sim A hA
    have hcard : (A.card : ℚ) ≠ 0 := by
      exact_mod_cast fun h => hA (Finset.card_eq_zero.mp h)
    rw [match_score_def, if_neg hA, matchedSkills_self, Finset.inter_self,
      Finset.inter_empty, Finset.card_empty, div_self hcard]
    norm_num
  · intro sim req pref hreq
    refine ⟨?_, by rw [match_missing_def, missingSkills_empty_profile]⟩
    rw [match_score_def, if_neg hreq, matchedSkills_empty_profile]
    simp

/-- C2 (witness): the amended statement at the concrete inputs
A = {"python"} and required = {"aws"}. -/
theorem match_identity_and_empty_profile_witness :
    («match» noSim {"python"} {"python"} ∅).match_score = 7/10 ∧
    («match» noSim ∅ {"aws"} ∅).match_score = 0 :=
  ⟨match_identity_and_empty_profile.1 noSim {"python"} (by decide),
   (match_identity_and_empty_profile.2 noSim {"aws"} ∅ (by decide)).1⟩

/-- C3: matched and missing skills are disjoint, and together they cover
every required skill. -/
theorem matched_missing_partition :
    ∀ (sim : SimOracle) (profile req pref : Finset String),
      («match» sim profile req pref).matched_skills ∩
        («match» sim profile req pref).missing_skills = ∅ ∧
      req ⊆ («match» sim profile req pref).matched_skills ∪
        («match» sim profile req pref).missing_skills := by
  intro sim profile req pref
  rw [match_matched_def, match_missing_def]
  constructor
  · rw [Finset.eq_empty_iff_forall_not_mem]
    intro x hx
    rw [Finset.mem_inter, matchedSkills, missingSkills, Finset.mem_filter,
      Finset.mem_filter] at hx
    exact hx.2.2 hx.1.2
  · intro x hx
    by_cases h : ∃ p ∈ profile, skillMatches sim p x = true
    · exact Finset.mem_union_left _
        (Finset.mem_filter.mpr ⟨Finset.mem_union_left _ hx, h⟩)
    · exact Finset.mem_union_right _ (Finset.mem_filter.mpr ⟨hx, h⟩)

/-- C3 (witness): disjointness at a concrete input. -/
theorem matched_missing_partition_witness :
    («match» noSim {"Python"} {"Python", "AWS"} ∅).matched_skills ∩
      («match» noSim {"Python"} {"Python", "AWS"} ∅).missing_skills = ∅ :=
  (matched_missing_partition noSim {"Python"} {"Python", "AWS"} ∅).1

/-- C8: the gap percentage is `100 * |missing| / max(|required|,1)`;
`analyze_gap` is a pure function of the MatchResult mapping that percentage
to severity `none` at 0%, `minor` below 25%, `moderate` from 25% to 60% and
`major` above 60%; empty required skills give gap 0 and severity `none`. -/
theorem gap_percentage_and_severity :
    (∀ (sim : SimOracle) (profile req pref : Finset String),
      («match» sim profile req pref).skill_gap_percentage =
        100 * ((missingSkills sim profile req).card : ℚ) /
          (max req.card 1 : ℕ)) ∧
    (∀ m : MatchResult,
      analyze_gap m = { percentage := m.skill_gap_percentage,
                        missing_skills := m.missing_skills,
                        severity := severityOf m.skill_gap_percentage }) ∧
    (∀ p : ℚ,
      (p = 0 → severityOf p = .none) ∧
      (0 < p → p < 25 → severityOf p = .minor) ∧
      (25 ≤ p → p ≤ 60 → severityOf p = .moderate) ∧
      (60 < p → severityOf p = .major)) ∧
    (∀ (sim : SimOracle) (profile pref : Finset String),
      («match» sim profile ∅ pref).skill_gap_percentage = 0 ∧
      (analyze_gap («match» sim profile ∅ pref)).severity = Severity.none) := by
  refine ⟨match_gap_def, fun m => rfl, fun p => ?_, fun sim profile pref => ?_⟩
  · refine ⟨fun h => by simp [severityOf, h], fun h0 h25 => ?_,
      fun h25 h60 => ?_, fun h60 => ?_⟩
    · rw [severityOf, if_neg (ne_of_gt h0), if_pos h25]
    · rw [severityOf, if_neg (by linarith), if_neg (not_lt.mpr h25),
        if_pos h60]
    · rw [severityOf, if_neg (by linarith), if_neg (by
        exact not_lt.mpr (by linarith)), if_neg (not_le.mpr h60)]
  · have hgap : («match» sim profile ∅ pref).skill_gap_percentage = 0 := by
      rw [match_gap_def, missingSkills_empty_req]
      simp
    refine ⟨hgap, ?_⟩
    show severityOf («match» sim profile ∅ pref).skill_gap_percentage =
      Severity.none
    rw [hgap, severityOf, if_pos rfl]

/-- C4: the ranked output is ordered by the total lexicographic key
(descending score, then affinity, then recency, then ascending job id),
contains only active candidates, is the `limit`-prefix of a full ordering of
all active candidates (truncation only after full ordering), and `rank` is
deterministic on identical inputs. -/
theorem rank_total_order :
    ∀ (p : RankProfile) (candidates : List Candidate) (limit : ℕ),
      List.Sorted (rankLE p) (rank p candidates limit) ∧
      (∃ full : List Candidate,
        full.Perm (candidates.filter (fun c => c.job.active)) ∧
        List.Sorted (rankLE p) full ∧
        rank p candidates limit = full.take limit) ∧
      rank p candidates limit ⊆ candidates.filter (fun c => c.job.active) ∧
      (rank p candidates limit).length ≤ limit ∧
      rank p candidates limit = rank p candidates limit := by
  intro p candidates limit
  have hsorted : List.Sorted (rankLE p)
      ((candidates.filter (fun c => c.job.active)).insertionSort (rankLE p)) :=
    List.sorted_insertionSort (rankLE p) _
  have hperm : ((candidates.filter
      (fun c => c.job.active)).insertionSort (rankLE p)).Perm
        (candidates.filter (fun c => c.job.active)) :=
    List.perm_insertionSort (rankLE p) _
  refine ⟨?_, ⟨_, hperm, hsorted, rfl⟩, ?_, ?_, rfl⟩
  · exact List.Pairwise.sublist (List.take_sublist _ _) hsorted
  · intro x hx
    exact hperm.subset ((List.take_sublist _ _).subset hx)
  · exact List.length_take_le _ _

/-- C4 (witness): the length bound at a concrete singleton input. -/
theorem rank_total_order_witness :
    (rank ⟨[]⟩ [⟨⟨1, {"a"}, 0, true⟩, ⟨1, ∅, ∅, 0⟩⟩] 1).length ≤ 1 :=
  (rank_total_order ⟨[]⟩ [⟨⟨1, {"a"}, 0, true⟩, ⟨1, ∅, ∅, 0⟩⟩] 1).2.2.2.1

/-- C6: in every reachable provider state the circuit-breaker behaves as
specified — a closed circuit has seen fewer than 3 consecutive failures;
3 consecutive failures from a fresh closed state open the circuit; an open
circuit admits no call before the 60-second cooldown has elapsed; once it
has elapsed exactly one half-open trial is admitted (no further call is
admitted while the trial is in flight); a successful trial closes the
circuit and resets the failure count; a failed trial reopens the circuit
and restarts the cooldown. -/
theorem circuit_breaker_behaviour :
    ∀ s : ProviderState, ReachableProviderState s →
      (s.circuit = .closed → s.failures < failureThreshold) ∧
      (∀ t1 t2 t3 : ℕ, s.circuit = .closed → s.failures = 0 →
        (onFailure (onFailure (onFailure s t1) t2) t3).circuit = .«open») ∧
      (∀ now, s.circuit = .«open» → now < s.lastFailure + cooldownSeconds →
        tryAcquire s now = none) ∧
      (∀ now, s.circuit = .«open» → s.lastFailure + cooldownSeconds ≤ now →
        tryAcquire s now = some ⟨.halfOpen, s.failures, s.lastFailure⟩ ∧
        ∀ now', tryAcquire ⟨.halfOpen, s.failures, s.lastFailure⟩ now'
          = none) ∧
      (s.circuit = .halfOpen →
        (onSuccess s).circuit = .closed ∧ (onSuccess s).failures = 0) ∧
      (∀ now, s.circuit = .halfOpen →
        (onFailure s now).circuit = .«open» ∧
        (onFailure s now).lastFailure = now ∧
        ∀ t, t < now + cooldownSeconds →
          tryAcquire (onFailure s now) t = none) := by
  intro s h
  refine ⟨reachable_closed_failures_lt h, ?_, ?_, ?_, fun _ => ⟨rfl, rfl⟩, ?_⟩
  · intro t1 t2 t3 hc h0
    obtain ⟨c, f, lf⟩ := s
    simp only at hc h0
    subst hc h0
    simp [onFailure, failureThreshold]
  · intro now hc hlt
    simp only [tryAcquire, hc]
    rw [if_neg (by omega)]
  · intro now hc hle
    refine ⟨?_, fun now' => rfl⟩
    simp only [tryAcquire, hc]
    rw [if_pos hle]
  · intro now hh
    refine ⟨?_, ?_, fun t ht => ?_⟩
    · simp only [onFailure, hh]
    · simp only [onFailure, hh]
    · simp only [onFailure, hh, tryAcquire]
      rw [if_neg (by omega)]


/-- The dot product of a vector with itself is non-negative. -/
lemma dotp_self_nonneg : ∀ a : List ℝ, 0 ≤ dotp a a
  | [] => le_refl 0
  | x :: xs => by
      rw [dotp]
      have := dotp_self_nonneg xs
      nlinarith [sq_nonneg x]

/-- The inductive step of the Cauchy–Schwarz bound. -/
lemma cauchy_step (x y A B d : ℝ) (hA : 0 ≤ A) (hB : 0 ≤ B)
    (hd : d ^ 2 ≤ A * B) : (x * y + d) ^ 2 ≤ (x ^ 2 + A) * (y ^ 2 + B) := by
  by_cases hB0 : B = 0
  · subst hB0
    have hd0 : d = 0 := by nlinarith [sq_nonneg d]
    subst hd0
    nlinarith [mul_nonneg hA (sq_nonneg y)]
  · have hBpos : 0 < B := lt_of_le_of_ne hB (Ne.symm hB0)
    have key : 0 ≤ (x * B - y * d) ^ 2 + (y ^ 2 + B) * (A * B - d ^ 2) :=
      add_nonneg (sq_nonneg _) (mul_nonneg (by positivity) (by linarith))
    have expand : (x * B - y * d) ^ 2 + (y ^ 2 + B) * (A * B - d ^ 2) =
        B * ((x ^ 2 + A) * (y ^ 2 + B) - (x * y + d) ^ 2) := by ring
    rw [expand] at key
    have := (mul_nonneg_iff_of_pos_left hBpos).mp key
    linarith

/-- Cauchy–Schwarz for list dot products. -/
lemma dotp_sq_le : ∀ a b : List ℝ, (dotp a b) ^ 2 ≤ dotp a a * dotp b b
  | [], _ => by simp [dotp]
  | _ :: _, [] => by simp [dotp]
  | x :: xs, y :: ys => by
      have ih := dotp_sq_le xs ys
      have hA := dotp_self_nonneg xs
      have hB := dotp_self_nonneg ys
      simp only [dotp]
      calc (x * y + dotp xs ys) ^ 2
          ≤ (x ^ 2 + dotp xs xs) * (y ^ 2 + dotp ys ys) :=
            cauchy_step x y _ _ _ hA hB ih
        _ = (x * x + dotp xs xs) * (y * y + dotp ys ys) := by ring

/-- A zero vector has zero self-dot-product. -/
lemma dotp_self_zero (a : List ℝ) (h : ∀ x ∈ a, x = 0) : dotp a a = 0 := by
  induction a with
  | nil => rfl
  | cons x xs ih =>
      rw [dotp, h x (List.mem_cons_self x xs),
        ih (fun y hy => h y (List.mem_cons_of_mem x hy))]
      ring

/-- C7: `similarity` fails with DimensionMismatch exactly on unequal
dimensions; on equal dimensions it returns a value in [-1, 1], which is 0
whenever either vector is the zero vector, and is the cosine (dot product
over product of magnitudes) whenever both magnitudes are non-zero. -/
theorem similarity_contract :
    ∀ a b : List ℝ,
      (similarity a b = .error .DimensionMismatch ↔ ¬ a.length = b.length) ∧
      (a.length = b.length →
        ∃ r : ℝ, similarity a b = .ok r ∧ -1 ≤ r ∧ r ≤ 1 ∧
          ((∀ x ∈ a, x = 0) ∨ (∀ x ∈ b, x = 0) → r = 0) ∧
          (¬ magnitude a = 0 → ¬ magnitude b = 0 →
            r = dotp a b / (magnitude a * magnitude b))) := by
  intro a b
  constructor
  · rw [similarity]
    split_ifs with h1 h2 <;> simp [h1]
  · intro hlen
    rw [similarity, if_pos hlen]
    by_cases hz : magnitude a = 0 ∨ magnitude b = 0
    · rw [if_pos hz]
      refine ⟨0, rfl, by norm_num, by norm_num, fun _ => rfl, ?_⟩
      intro ha hb
      rcases hz with h | h
      · exact absurd h ha
      · exact absurd h hb
    · rw [if_neg hz]
      push_neg at hz
      obtain ⟨ha, hb⟩ := hz
      have hA : 0 ≤ dotp a a := dotp_self_nonneg a
      have hsa : 0 < magnitude a :=
        lt_of_le_of_ne (Real.sqrt_nonneg _) (Ne.symm ha)
      have hsb : 0 < magnitude b :=
        lt_of_le_of_ne (Real.sqrt_nonneg _) (Ne.symm hb)
      have habs : |dotp a b| ≤ magnitude a * magnitude b := by
        have h1 : |dotp a b| ≤ Real.sqrt (dotp a a * dotp b b) :=
          Real.abs_le_sqrt (dotp_sq_le a b)
        rw [Real.sqrt_mul hA] at h1
        exact h1
      have hbound : |dotp a b / (magnitude a * magnitude b)| ≤ 1 := by
        rw [abs_div, abs_of_pos (mul_pos hsa hsb)]
        exact div_le_one_of_le₀ habs (le_of_lt (mul_pos hsa hsb))
      obtain ⟨hlo, hhi⟩ := abs_le.mp hbound
      refine ⟨_, rfl, hlo, hhi, ?_, fun _ _ => rfl⟩
      intro hzv
      rcases hzv with h | h
      · exact absurd (by rw [magnitude, dotp_self_zero a h, Real.sqrt_zero]) ha
      · exact absurd (by rw [magnitude, dotp_self_zero b h, Real.sqrt_zero]) hb

/-- C7 (witness): the contract at the concrete vectors [1] and [1, 2]
(mismatch) and [1] and [1] (a bounded cosine value). -/
theorem similarity_contract_witness :
    similarity [(1 : ℝ)] [1, 2] = .error .DimensionMismatch ∧
    ∃ r : ℝ, similarity [(1 : ℝ)] [1] = .ok r ∧ -1 ≤ r ∧ r ≤ 1 := by
  refine ⟨(similarity_contract [(1 : ℝ)] [1, 2]).1.mpr (by simp), ?_⟩
  obtain ⟨r, hr, h1, h2, -, -⟩ := (similarity_contract [(1 : ℝ)] [1]).2 rfl
  exact ⟨r, hr, h1, h2⟩

/-- C9: a chat turn never surfaces a provider failure as a hard error —
when every provider of the preference chain fails (or is skipped with an
open circuit), `send` returns the fixed degraded response instead of
raising; and the dashboard's `sendMessage` replaces a failed chatbot
request with the fixed polite bot message in the chat transcript. -/
theorem chat_failures_degrade_gracefully :
    (∀ (providers : List Provider) (msg : String),
      (∀ p ∈ providers, p msg = none) →
        send providers msg = degradedResponse) ∧
    (∀ (chat : List (Role × String)) (input : String),
      ¬ trimStr input = "" →
        sendMessage chat input none =
          chat ++ [(Role.user, trimStr input),
            (Role.bot, politeFallback)]) := by
  constructor
  · intro providers msg h
    induction providers with
    | nil => rfl
    | cons p rest ih =>
        have hp := h p (List.mem_cons_self p rest)
        simp only [send, hp]
        exact ih fun q hq => h q (List.mem_cons_of_mem p hq)
  · intro chat input hne
    rw [sendMessage, if_neg hne]

/-- C9 (witness): one all-failing provider chain and one failed dashboard
request, at concrete inputs. -/
theorem chat_failures_degrade_gracefully_witness :
    send [fun _ => none] "hi" = degradedResponse ∧
    sendMessage [] "hello" none =
      [(Role.user, trimStr "hello"), (Role.bot, politeFallback)] :=
  ⟨chat_failures_degrade_gracefully.1 [fun _ => none] "hi"
      (fun p hp => by rw [List.eq_of_mem_singleton hp]),
   chat_failures_degrade_gracefully.2 [] "hello" (by decide)⟩

/-- C10: the dashboard renders at most the first five recommendations as
job cards, in order; each card carries at most the first three matched
skills as tags, with a single `+N more` tag exactly when more than three
matched (N being the number of hidden skills). -/
theorem display_recommendations_contract :
    ∀ recs : List Recommendation,
      displayRecommendations recs = (recs.take 5).map renderCard ∧
      (displayRecommendations recs).length ≤ 5 ∧
      (∀ rec : Recommendation,
        (3 < rec.matched_skills.length →
          (renderCard rec).skillTags = rec.matched_skills.take 3 ++
            ["+" ++ toString (rec.matched_skills.length - 3) ++ " more"]) ∧
        (rec.matched_skills.length ≤ 3 →
          (renderCard rec).skillTags = rec.matched_skills)) := by
  intro recs
  refine ⟨rfl, ?_, ?_⟩
  · rw [displayRecommendations, List.length_map]
    exact List.length_take_le 5 recs
  · intro rec
    constructor
    · intro h
      show rec.matched_skills.take 3 ++ _ = _
      rw [if_pos h]
    · intro h
      show rec.matched_skills.take 3 ++ _ = _
      rw [if_neg (not_lt.mpr h), List.append_nil,
        List.take_of_length_le h]

/-- C10 (witness): a recommendation with five matched skills renders three
tags and a single "+2 more" tag. -/
theorem display_recommendations_contract_witness :
    (renderCard ⟨⟨1, "t", "c", Option.none⟩, 1/2,
      ["a", "b", "c", "d", "e"]⟩).skillTags = ["a", "b", "c", "+2 more"] := by
  have h := ((display_recommendations_contract []).2.2
    ⟨⟨1, "t", "c", Option.none⟩, 1/2, ["a", "b", "c", "d", "e"]⟩).1
    (by decide)
  rw [h]
  rfl

/-- C6 (witness): the closed-circuit invariant at the initial state. -/
theorem circuit_breaker_behaviour_witness :
    initialProviderState.failures < failureThreshold :=
  (circuit_breaker_behaviour initialProviderState .init).1 rfl

/-- C8 (witness): the severity thresholds at concrete percentages. -/
theorem gap_percentage_and_severity_witness :
    severityOf 50 = Severity.moderate ∧ severityOf 10 = Severity.minor ∧
    severityOf 75 = Severity.major :=
  ⟨((gap_percentage_and_severity.2.2.1 50).2.2.1 (by norm_num) (by norm_num)),
   ((gap_percentage_and_severity.2.2.1 10).2.1 (by norm_num) (by norm_num)),
   ((gap_percentage_and_severity.2.2.1 75).2.2.2 (by norm_num))⟩

end JobRec
